import Mathlib

/-!
Shallow embedding of the LibraryInfo inventory service (`src/main.py`).

The database state is a record of row lists, one per table.  Each HTTP
handler becomes a pure function on that state; a handler that can answer
404/409 returns `Except ApiError`.  Integer database columns are `Int`,
nullable ones `Option _`; the `Numeric(10,2)` price column is an integer
count of hundredths.  A raised `HTTPException` followed by `rollback`
leaves the database untouched, which the `Except` error branch models by
returning no state.
-/

/-- Row of the `books` table.  `(title, authors, publisher, year)` carries
the `uq_book_identity` unique constraint. -/
structure Book where
  id : Int
  title : String
  authors : String
  publisher : String
  year : Option Int
  pages : Option Int
  illustrations : Int
  price : Option Int
deriving DecidableEq

/-- Row of the `branches` table. -/
structure Branch where
  id : Int
  name : String
  address : String
deriving DecidableEq

/-- Row of the `faculties` table; `name` is globally unique. -/
structure Faculty where
  id : Int
  name : String
deriving DecidableEq

/-- Row of the `book_stock` table, keyed by `(book_id, branch_id)`. -/
structure BookStock where
  book_id : Int
  branch_id : Int
  quantity : Int
deriving DecidableEq

/-- Row of the `book_faculty` link table, keyed by `(book_id, faculty_id)`. -/
structure BookFaculty where
  book_id : Int
  faculty_id : Int
deriving DecidableEq

/-- The whole relational state, plus the autoincrement counter feeding new
book primary keys. -/
structure DB where
  books : List Book
  branches : List Branch
  faculties : List Faculty
  stocks : List BookStock
  links : List BookFaculty
  nextBookId : Int
deriving DecidableEq

/-- The two error classes the handlers raise: `not_found` (404) and
`conflict` (409), each with the detail string from the source. -/
inductive ApiError where
  | notFound (detail : String)
  | conflict (detail : String)
deriving DecidableEq

/-- Payload `BookCreate`: the caller-supplied fields of a new book. -/
structure BookCreate where
  title : String
  authors : String
  publisher : String
  year : Option Int
  pages : Option Int
  illustrations : Int
  price : Option Int
deriving DecidableEq

/-- Payload `BookUpdate`: every field optional; an outer `none` means the
field was not present in the request (`exclude_unset`).  For the nullable
columns the inner `Option` is the stored value, so `some none` writes SQL
NULL. -/
structure BookUpdate where
  title : Option String
  authors : Option String
  publisher : Option String
  year : Option (Option Int)
  pages : Option (Option Int)
  illustrations : Option Int
  price : Option (Option Int)
deriving DecidableEq

/-- Payload `StockUpsert`. -/
structure StockUpsert where
  book_id : Int
  branch_id : Int
  quantity : Int
deriving DecidableEq

/-- Response of `GET /analytics/.../quantity`. -/
structure QuantityOut where
  branch_id : Int
  book_id : Int
  quantity : Int
deriving DecidableEq

/-- Response of `GET /analytics/.../faculties`. -/
structure FacultiesOut where
  book_id : Int
  branch_id : Int
  count : Nat
  faculties : List String
deriving DecidableEq

/-- The `(title, authors, publisher, year)` identity tuple guarded by
`uq_book_identity`. -/
def Book.identity (b : Book) : String × String × String × Option Int :=
  (b.title, b.authors, b.publisher, b.year)

/-- Identity tuple of a create payload. -/
def BookCreate.identity (p : BookCreate) : String × String × String × Option Int :=
  (p.title, p.authors, p.publisher, p.year)

/-- The read `select(func.coalesce(func.sum(BookStock.quantity), 0)).where(book_id == …)`:
the aggregate stock of one book over all branches, absence summing to 0. -/
def stockSumFor (db : DB) (book_id : Int) : Int :=
  ((db.stocks.filter (fun s => s.book_id == book_id)).map (fun s => s.quantity)).sum

/-- The read `select(BookStock.quantity).where(branch_id == …, book_id == …)` issued with
`session.scalar`: the first matching row's quantity, if any. -/
def stockLookup (db : DB) (branch_id book_id : Int) : Option Int :=
  (db.stocks.find? (fun s => s.branch_id == branch_id && s.book_id == book_id)).map
    (fun s => s.quantity)

/-- The row `Book(**payload.model_dump())` after the flush: the new row built
from the caller-supplied fields, keyed by the next sequence value. -/
def newBookFor (payload : BookCreate) (db : DB) : Book :=
  { id := db.nextBookId, title := payload.title, authors := payload.authors,
    publisher := payload.publisher, year := payload.year, pages := payload.pages,
    illustrations := payload.illustrations, price := payload.price }

/-- Handler `POST /books` — `create_book`: build the row, insert, commit; a
violation of `uq_book_identity` raises `IntegrityError`, which rolls back
and becomes a 409. -/
def create_book (payload : BookCreate) (db : DB) : Except ApiError (Book × DB) :=
  if db.books.any (fun b => b.identity == (newBookFor payload db).identity) then
    .error (.conflict "Дублирующая запись книги, проверь название, авторов, издательство и год")
  else
    .ok (newBookFor payload db,
      { db with books := db.books ++ [newBookFor payload db], nextBookId := db.nextBookId + 1 })

/-- Merge of `payload.model_dump(exclude_unset=True)` onto a fetched book:
each present field is assigned, each absent one kept. -/
def applyUpdate (p : BookUpdate) (b : Book) : Book :=
  { b with
    title := p.title.getD b.title,
    authors := p.authors.getD b.authors,
    publisher := p.publisher.getD b.publisher,
    year := p.year.getD b.year,
    pages := p.pages.getD b.pages,
    illustrations := p.illustrations.getD b.illustrations,
    price := p.price.getD b.price }

/-- Handler `PUT /books/{id}` — `update_book`: fetch (404 if absent), merge the
present fields, commit; an `IntegrityError` (the merged identity tuple
collides with another book) rolls back into a 409. -/
def update_book (book_id : Int) (p : BookUpdate) (db : DB) : Except ApiError (Book × DB) :=
  (db.books.find? (fun b => b.id == book_id)).elim
    (.error (.notFound "Книга не найдена"))
    (fun b =>
      if db.books.any (fun c => !(c.id == book_id) && c.identity == (applyUpdate p b).identity) then
        .error (.conflict "Не удалось обновить книгу: нарушена уникальность или ограничения")
      else
        .ok (applyUpdate p b,
          { db with books := db.books.map (fun c => if c.id == book_id then applyUpdate p b else c) }))

/-- Handler `DELETE /books/{id}` — `delete_book`: conflict if the aggregate stock is
positive (`if qty and qty > 0`); then fetch (404 if absent) and delete.  The
ORM cascade `all, delete-orphan` on `Book.stocks` and `Book.used_by`
removes the book's stock and link rows with it. -/
def delete_book (book_id : Int) (db : DB) : Except ApiError DB :=
  if 0 < stockSumFor db book_id then
    .error (.conflict "Нельзя удалить книгу: она числится в филиалах. Сначала обнули количество в филиалах")
  else if db.books.find? (fun b => b.id == book_id) = none then
    .error (.notFound "Книга не найдена")
  else
    .ok { db with
      books := db.books.filter (fun b => !(b.id == book_id)),
      stocks := db.stocks.filter (fun s => !(s.book_id == book_id)),
      links := db.links.filter (fun l => !(l.book_id == book_id)) }

/-- Handler `DELETE /branches/{id}` — `delete_branch`: conflict if any stock row of
the branch has `quantity > 0`; then fetch (404 if absent) and delete.  The
cascade on `Branch.stocks` removes the branch's stock rows with it. -/
def delete_branch (branch_id : Int) (db : DB) : Except ApiError DB :=
  if 0 < (db.stocks.filter (fun s => s.branch_id == branch_id && decide (0 < s.quantity))).length then
    .error (.conflict "Нельзя удалить филиал: в нем числятся книги. Сначала обнули количество")
  else if db.branches.find? (fun b => b.id == branch_id) = none then
    .error (.notFound "Филиал не найден")
  else
    .ok { db with
      branches := db.branches.filter (fun b => !(b.id == branch_id)),
      stocks := db.stocks.filter (fun s => !(s.branch_id == branch_id)) }

/-- Handler `DELETE /faculties/{id}` — `delete_faculty`: conflict if any
book-faculty link row references the faculty; then fetch (404 if absent)
and delete.  The cascade on `Faculty.used_books` removes its link rows. -/
def delete_faculty (faculty_id : Int) (db : DB) : Except ApiError DB :=
  if 0 < (db.links.filter (fun l => l.faculty_id == faculty_id)).length then
    .error (.conflict "Нельзя удалить факультет: есть связи с книгами. Сначала отвяжи книги от факультета")
  else if db.faculties.find? (fun f => f.id == faculty_id) = none then
    .error (.notFound "Факультет не найден")
  else
    .ok { db with
      faculties := db.faculties.filter (fun f => !(f.id == faculty_id)),
      links := db.links.filter (fun l => !(l.faculty_id == faculty_id)) }

/-- The assignment `obj.quantity = payload.quantity` on the fetched row: the stock row of
the pair keeps its key and takes the new quantity; other rows are kept. -/
def overwriteQty (bk br q : Int) (l : List BookStock) : List BookStock :=
  l.map (fun s => if s.book_id == bk && s.branch_id == br then { s with quantity := q } else s)

/-- Handler `PUT /admin/stock` — `upsert_stock`: 404 if the book or the branch does
not exist; insert a row for the pair when none exists, otherwise overwrite
its quantity; commit. -/
def upsert_stock (p : StockUpsert) (db : DB) : Except ApiError (BookStock × DB) :=
  if db.books.find? (fun b => b.id == p.book_id) = none then
    .error (.notFound "Книга не найдена")
  else if db.branches.find? (fun b => b.id == p.branch_id) = none then
    .error (.notFound "Филиал не найден")
  else if db.stocks.find? (fun s => s.book_id == p.book_id && s.branch_id == p.branch_id) = none then
    .ok (⟨p.book_id, p.branch_id, p.quantity⟩,
      { db with stocks := db.stocks ++ [⟨p.book_id, p.branch_id, p.quantity⟩] })
  else
    .ok (⟨p.book_id, p.branch_id, p.quantity⟩,
      { db with stocks := overwriteQty p.book_id p.branch_id p.quantity db.stocks })

/-- Handler `GET /analytics/branches/{b}/books/{k}/quantity` — `analytics_quantity`:
echoes both ids and answers `int(qty or 0)`; never an error. -/
def analytics_quantity (branch_id book_id : Int) (db : DB) : QuantityOut :=
  let qty := stockLookup db branch_id book_id
  { branch_id := branch_id, book_id := book_id, quantity := qty.getD 0 }

/-- The joined name list of
`select(Faculty.name).join(BookFaculty, ...).where(BookFaculty.book_id == …)`:
each link row of the book contributes the name of its faculty. -/
def linkedFacultyNames (db : DB) (book_id : Int) : List String :=
  (db.links.filter (fun l => l.book_id == book_id)).filterMap
    (fun l => (db.faculties.find? (fun f => f.id == l.faculty_id)).map (fun f => f.name))

/-- Handler `GET /analytics/branches/{b}/books/{k}/faculties` — `analytics_faculties`:
empty result when the pair's quantity is absent, zero or negative — the
source guard `if not qty or qty <= 0` on the optional scalar is exactly
"the value-or-0 is ≤ 0"; otherwise the linked faculty names ordered by
name, with their count. -/
def analytics_faculties (branch_id book_id : Int) (db : DB) : FacultiesOut :=
  if (stockLookup db branch_id book_id).getD 0 ≤ 0 then
    { book_id := book_id, branch_id := branch_id, count := 0, faculties := [] }
  else
    { book_id := book_id, branch_id := branch_id,
      count := (List.insertionSort (· ≤ ·) (linkedFacultyNames db book_id)).length,
      faculties := List.insertionSort (· ≤ ·) (linkedFacultyNames db book_id) }

/-- Primary-key uniqueness of `books.id`. -/
abbrev bookIdsUnique (db : DB) : Prop :=
  db.books.Pairwise (fun a b => a.id ≠ b.id)

/-- The `uq_book_identity` invariant: no two stored books share the
identity tuple. -/
abbrev bookIdentityUnique (db : DB) : Prop :=
  db.books.Pairwise (fun a b => a.identity ≠ b.identity)

/-- Primary-key uniqueness of `faculties.id`. -/
abbrev facultyIdsUnique (db : DB) : Prop :=
  db.faculties.Pairwise (fun a b => a.id ≠ b.id)

/-- Composite-key uniqueness of `book_stock`: one row per
`(book_id, branch_id)` pair. -/
abbrev stockKeysUnique (db : DB) : Prop :=
  db.stocks.Pairwise (fun a b => ¬(a.book_id = b.book_id ∧ a.branch_id = b.branch_id))

/-- All stored quantities are nonnegative: every write path is validated
with `quantity ≥ 0` and the column defaults to 0. -/
abbrev quantitiesNonneg (db : DB) : Prop :=
  ∀ s ∈ db.stocks, 0 ≤ s.quantity

/-- The update payload none of whose fields is present. -/
def emptyBookUpdate : BookUpdate :=
  { title := none, authors := none, publisher := none, year := none,
    pages := none, illustrations := none, price := none }

/-- Sample row: a book with a fully populated record. -/
def bookCalc : Book :=
  { id := 1, title := "Calculus", authors := "Ivanov", publisher := "MSU",
    year := some 2001, pages := some 300, illustrations := 2, price := some 50000 }

/-- Sample row: a book with the nullable columns NULL. -/
def bookAlg : Book :=
  { id := 2, title := "Algebra", authors := "Petrov", publisher := "MSU",
    year := none, pages := none, illustrations := 0, price := none }

/-- Sample row: first branch. -/
def branchMain : Branch := { id := 1, name := "Main", address := "Center 1" }

/-- Sample row: second branch. -/
def branchEast : Branch := { id := 2, name := "East", address := "East 5" }

/-- Sample row: first faculty. -/
def facMath : Faculty := { id := 1, name := "Math" }

/-- Sample row: second faculty. -/
def facPhys : Faculty := { id := 2, name := "Physics" }

/-- Sample row: a faculty no link row references. -/
def facChem : Faculty := { id := 3, name := "Chemistry" }

/-- A populated sample state: book 1 is stocked at both branches and linked
to both faculties; book 2 has one zero-quantity stock row and no links. -/
def sampleDB : DB :=
  { books := [bookCalc, bookAlg],
    branches := [branchMain, branchEast],
    faculties := [facMath, facPhys, facChem],
    stocks := [⟨1, 1, 3⟩, ⟨2, 1, 0⟩, ⟨1, 2, 2⟩],
    links := [⟨1, 2⟩, ⟨1, 1⟩],
    nextBookId := 3 }

/-- A sample state whose stock rows all hold quantity 0. -/
def zeroStockDB : DB :=
  { books := [bookCalc],
    branches := [branchMain, branchEast],
    faculties := [],
    stocks := [⟨1, 1, 0⟩, ⟨1, 2, 0⟩],
    links := [],
    nextBookId := 2 }

/-- The member that uniquely satisfies the predicate is the one `find?` returns. -/
theorem find_first_unique {α : Type} {p : α → Bool} {l : List α} {a : α}
    (ha : a ∈ l) (hpa : p a = true) (huniq : ∀ b ∈ l, p b = true → b = a) :
    l.find? p = some a := by
  induction l with
  | nil => cases ha
  | cons x xs ih =>
    by_cases hx : p x = true
    · rw [List.find?_cons_of_pos _ hx, huniq x (List.mem_cons_self x xs) hx]
    · rw [List.find?_cons_of_neg _ hx]
      rcases List.mem_cons.1 ha with rfl | hmem
      · exact absurd hpa hx
      · exact ih hmem fun b hb hpb => huniq b (List.mem_cons_of_mem _ hb) hpb

/-- Two stock rows of a key-unique state with the same composite key are
the same row. -/
theorem stock_key_inj {db : DB} (hk : stockKeysUnique db) {s t : BookStock}
    (hs : s ∈ db.stocks) (ht : t ∈ db.stocks)
    (h1 : s.book_id = t.book_id) (h2 : s.branch_id = t.branch_id) : s = t := by
  have hsym : Symmetric (fun a b : BookStock =>
      ¬(a.book_id = b.book_id ∧ a.branch_id = b.branch_id)) :=
    fun a b h hc => h ⟨hc.1.symm, hc.2.symm⟩
  rcases eq_or_ne s t with h | hne
  · exact h
  · exact absurd ⟨h1, h2⟩ (List.Pairwise.forall hsym hk hs ht hne)

/-- Two faculty rows of an id-unique state with the same id are the same
row. -/
theorem faculty_id_inj {db : DB} (hf : facultyIdsUnique db) {s t : Faculty}
    (hs : s ∈ db.faculties) (ht : t ∈ db.faculties) (h : s.id = t.id) : s = t := by
  have hsym : Symmetric (fun a b : Faculty => a.id ≠ b.id) :=
    fun a b h1 h2 => h1 h2.symm
  rcases eq_or_ne s t with he | hne
  · exact he
  · exact absurd h (List.Pairwise.forall hsym hf hs ht hne)

/-- Two book rows of an id-unique state with the same id are the same row. -/
theorem book_id_inj {db : DB} (hb : bookIdsUnique db) {s t : Book}
    (hs : s ∈ db.books) (ht : t ∈ db.books) (h : s.id = t.id) : s = t := by
  have hsym : Symmetric (fun a b : Book => a.id ≠ b.id) :=
    fun a b h1 h2 => h1 h2.symm
  rcases eq_or_ne s t with he | hne
  · exact he
  · exact absurd h (List.Pairwise.forall hsym hb hs ht hne)

/-- The scalar stock read finds the row of the pair when one is stored. -/
theorem stockLookup_eq_some {db : DB} (hk : stockKeysUnique db) {s : BookStock}
    (hs : s ∈ db.stocks) {br bk : Int} (hbr : s.branch_id = br) (hbk : s.book_id = bk) :
    stockLookup db br bk = some s.quantity := by
  unfold stockLookup
  rw [find_first_unique hs (by simp [hbr, hbk]) ?_]
  · rfl
  · intro t ht hpt
    simp only [Bool.and_eq_true, beq_iff_eq] at hpt
    exact stock_key_inj hk ht hs (hpt.2.trans hbk.symm) (hpt.1.trans hbr.symm)

/-- The scalar stock read answers `none` when no row of the pair exists. -/
theorem stockLookup_eq_none {db : DB} {br bk : Int}
    (h : ∀ s ∈ db.stocks, ¬(s.branch_id = br ∧ s.book_id = bk)) :
    stockLookup db br bk = none := by
  unfold stockLookup
  rw [List.find?_eq_none.2 ?_]
  · rfl
  · intro s hs
    simp only [Bool.and_eq_true, beq_iff_eq]
    exact h s hs

/-- Overwriting the quantity of a pair leaves no matching row when none
matched to begin with. -/
theorem overwriteQty_filter_nil (bk br q : Int) {l : List BookStock}
    (h : ∀ t ∈ l, ¬(t.book_id = bk ∧ t.branch_id = br)) :
    (overwriteQty bk br q l).filter (fun t => t.book_id == bk && t.branch_id == br) = [] := by
  induction l with
  | nil => rfl
  | cons x xs ih =>
    have hx : ¬((x.book_id == bk && x.branch_id == br) = true) := by
      simp only [Bool.and_eq_true, beq_iff_eq]
      exact h x (List.mem_cons_self x xs)
    simp only [overwriteQty, List.map_cons, List.filter_cons, if_neg hx]
    exact ih fun t ht => h t (List.mem_cons_of_mem _ ht)

/-- After an overwrite on a key-unique list that holds the pair, exactly
the one freshly written row matches the pair. -/
theorem overwriteQty_filter_key (bk br q : Int) {l : List BookStock}
    (hu : l.Pairwise (fun a b => ¬(a.book_id = b.book_id ∧ a.branch_id = b.branch_id)))
    {s : BookStock} (hs : s ∈ l) (h1 : s.book_id = bk) (h2 : s.branch_id = br) :
    (overwriteQty bk br q l).filter (fun t => t.book_id == bk && t.branch_id == br) =
      [{ book_id := bk, branch_id := br, quantity := q }] := by
  induction l with
  | nil => cases hs
  | cons x xs ih =>
    rw [List.pairwise_cons] at hu
    by_cases hx : (x.book_id == bk && x.branch_id == br) = true
    · have hx' : x.book_id = bk ∧ x.branch_id = br := by simpa using hx
      have hhead : (({ x with quantity := q } : BookStock).book_id == bk &&
          ({ x with quantity := q } : BookStock).branch_id == br) = true := by
        simpa using hx'
      have hrow : ({ x with quantity := q } : BookStock) = ⟨bk, br, q⟩ := by
        cases x
        simp_all
      have hrest : ∀ t ∈ xs, ¬(t.book_id = bk ∧ t.branch_id = br) := by
        intro t ht hc
        exact hu.1 t ht ⟨hx'.1.trans hc.1.symm, hx'.2.trans hc.2.symm⟩
      simp only [overwriteQty, List.map_cons, if_pos hx, List.filter_cons, if_pos hhead]
      rw [List.cons_eq_cons]
      refine ⟨hrow, ?_⟩
      exact overwriteQty_filter_nil bk br q hrest
    · have hxne : ¬(x.book_id = bk ∧ x.branch_id = br) := by
        intro hc
        simp [hc.1, hc.2] at hx
      rcases List.mem_cons.1 hs with rfl | hmem
      · exact absurd ⟨h1, h2⟩ hxne
      · simp only [overwriteQty, List.map_cons, if_neg hx, List.filter_cons, if_neg hx]
        exact ih hu.2 hmem

/-- An overwrite does not touch the rows of other pairs. -/
theorem overwriteQty_filter_others (bk br q : Int) (l : List BookStock) :
    (overwriteQty bk br q l).filter (fun t => !(t.book_id == bk && t.branch_id == br)) =
      l.filter (fun t => !(t.book_id == bk && t.branch_id == br)) := by
  induction l with
  | nil => rfl
  | cons x xs ih =>
    by_cases hx : (x.book_id == bk && x.branch_id == br) = true
    · have hnh : ¬((!(({ x with quantity := q } : BookStock).book_id == bk &&
          ({ x with quantity := q } : BookStock).branch_id == br)) = true) := by
        simp [hx]
      have hnx : ¬((!(x.book_id == bk && x.branch_id == br)) = true) := by
        simp [hx]
      simp only [overwriteQty, List.map_cons, if_pos hx, List.filter_cons, if_neg hnh, if_neg hnx]
      exact ih
    · have hbx : (x.book_id == bk && x.branch_id == br) = false := Bool.eq_false_iff.2 hx
      have hnx : (!(x.book_id == bk && x.branch_id == br)) = true := by
        simp [hbx]
      simp only [overwriteQty, List.map_cons, if_neg hx, List.filter_cons, if_pos hnx]
      rw [List.cons_eq_cons]
      refine ⟨rfl, ?_⟩
      exact ih

/-- An overwrite preserves composite-key uniqueness of the stock rows. -/
theorem overwriteQty_keys (bk br q : Int) {l : List BookStock}
    (hu : l.Pairwise (fun a b => ¬(a.book_id = b.book_id ∧ a.branch_id = b.branch_id))) :
    (overwriteQty bk br q l).Pairwise
      (fun a b => ¬(a.book_id = b.book_id ∧ a.branch_id = b.branch_id)) := by
  refine List.Pairwise.map _ ?_ hu
  intro a b hab hc
  apply hab
  constructor
  · have ha : ((if a.book_id == bk && a.branch_id == br then
        { a with quantity := q } else a) : BookStock).book_id = a.book_id := by
      split <;> rfl
    have hb : ((if b.book_id == bk && b.branch_id == br then
        { b with quantity := q } else b) : BookStock).book_id = b.book_id := by
      split <;> rfl
    rw [← ha, ← hb]
    exact hc.1
  · have ha : ((if a.book_id == bk && a.branch_id == br then
        { a with quantity := q } else a) : BookStock).branch_id = a.branch_id := by
      split <;> rfl
    have hb : ((if b.book_id == bk && b.branch_id == br then
        { b with quantity := q } else b) : BookStock).branch_id = b.branch_id := by
      split <;> rfl
    rw [← ha, ← hb]
    exact hc.2

/-- Membership in the joined faculty-name list, characterised through the
link and faculty tables. -/
theorem mem_linkedFacultyNames {db : DB} (hf : facultyIdsUnique db) (book_id : Int)
    (name : String) :
    name ∈ linkedFacultyNames db book_id ↔
      ∃ l ∈ db.links, l.book_id = book_id ∧
        ∃ f ∈ db.faculties, f.id = l.faculty_id ∧ f.name = name := by
  unfold linkedFacultyNames
  rw [List.mem_filterMap]
  constructor
  · rintro ⟨l, hl, hg⟩
    rw [List.mem_filter] at hl
    rcases Option.map_eq_some'.1 hg with ⟨f, hfind, hname⟩
    refine ⟨l, hl.1, by simpa using hl.2, f, List.mem_of_find?_eq_some hfind, ?_, hname⟩
    simpa using List.find?_some hfind
  · rintro ⟨l, hl, hbk, f, hfm, hfid, hname⟩
    refine ⟨l, List.mem_filter.2 ⟨hl, by simp [hbk]⟩, ?_⟩
    rw [find_first_unique hfm (by simp [hfid]) ?_]
    · simp [hname]
    · intro g hg hpg
      simp only [beq_iff_eq] at hpg
      exact faculty_id_inj hf hg hfm (hpg.trans hfid.symm)

/-- C7: for every `(branch_id, book_id)` pair the quantity-lookup analytics
query signals no error: it echoes the requested ids, returns the stored
quantity when a stock row of the pair exists, and returns 0 when no row
exists. -/
theorem C7_analytics_quantity_spec (branch_id book_id : Int) (db : DB)
    (hk : stockKeysUnique db) :
    (analytics_quantity branch_id book_id db).branch_id = branch_id ∧
    (analytics_quantity branch_id book_id db).book_id = book_id ∧
    (∀ s ∈ db.stocks, s.branch_id = branch_id → s.book_id = book_id →
      (analytics_quantity branch_id book_id db).quantity = s.quantity) ∧
    ((∀ s ∈ db.stocks, ¬(s.branch_id = branch_id ∧ s.book_id = book_id)) →
      (analytics_quantity branch_id book_id db).quantity = 0) := by
  refine ⟨rfl, rfl, ?_, ?_⟩
  · intro s hs h1 h2
    show (stockLookup db branch_id book_id).getD 0 = s.quantity
    rw [stockLookup_eq_some hk hs h1 h2]
    rfl
  · intro h
    show (stockLookup db branch_id book_id).getD 0 = 0
    rw [stockLookup_eq_none h]
    rfl

/-- Concrete run of C7: branch 1 stores book 2 with quantity 0 and the
query answers that stored 0; branch 2 stores no row for book 2 and the
query answers 0. -/
theorem C7_analytics_quantity_spec_witness :
    stockKeysUnique sampleDB ∧
    (⟨2, 1, 0⟩ : BookStock) ∈ sampleDB.stocks ∧
    (analytics_quantity 1 2 sampleDB).quantity = 0 ∧
    (analytics_quantity 2 2 sampleDB).quantity = 0 :=
  ⟨by decide, by decide,
    (C7_analytics_quantity_spec 1 2 sampleDB (by decide)).2.2.1 ⟨2, 1, 0⟩ (by decide) rfl rfl,
    (C7_analytics_quantity_spec 2 2 sampleDB (by decide)).2.2.2 (by decide)⟩

/-- C2: faculty-usage analytics returns the empty result (count 0) when the
pair's stock is absent or zero, and otherwise exactly the names of the
faculties linked to the book, sorted lexicographically ascending, with the
count equal to the number of those names. -/
theorem C2_analytics_faculties_spec (branch_id book_id : Int) (db : DB)
    (hf : facultyIdsUnique db) :
    ((stockLookup db branch_id book_id = none ∨ stockLookup db branch_id book_id = some 0) →
      analytics_faculties branch_id book_id db =
        { book_id := book_id, branch_id := branch_id, count := 0, faculties := [] }) ∧
    (∀ q, stockLookup db branch_id book_id = some q → 0 < q →
      ((analytics_faculties branch_id book_id db).faculties.Pairwise (· ≤ ·) ∧
       (∀ name, name ∈ (analytics_faculties branch_id book_id db).faculties ↔
          ∃ l ∈ db.links, l.book_id = book_id ∧
            ∃ f ∈ db.faculties, f.id = l.faculty_id ∧ f.name = name) ∧
       (analytics_faculties branch_id book_id db).count =
         (analytics_faculties branch_id book_id db).faculties.length)) := by
  constructor
  · intro h
    unfold analytics_faculties
    rcases h with h | h
    · rw [h]
      rfl
    · rw [h]
      rfl
  · intro q hq hpos
    have hgate : ¬((stockLookup db branch_id book_id).getD 0 ≤ 0) := by
      rw [hq]
      simp only [Option.getD_some]
      omega
    have e : analytics_faculties branch_id book_id db =
        { book_id := book_id, branch_id := branch_id,
          count := (List.insertionSort (· ≤ ·) (linkedFacultyNames db book_id)).length,
          faculties := List.insertionSort (· ≤ ·) (linkedFacultyNames db book_id) } := by
      unfold analytics_faculties
      rw [if_neg hgate]
    rw [e]
    refine ⟨List.sorted_insertionSort _ _, ?_, rfl⟩
    intro name
    rw [(List.perm_insertionSort (· ≤ ·) (linkedFacultyNames db book_id)).mem_iff]
    exact mem_linkedFacultyNames hf book_id name

/-- Concrete run of C2: branch 1 holds 3 copies of book 1, which is linked
to both sample faculties, so the name list contains "Math". -/
theorem C2_analytics_faculties_spec_witness :
    facultyIdsUnique sampleDB ∧ stockLookup sampleDB 1 1 = some 3 ∧ ((0 : Int) < 3) ∧
    ("Math" ∈ (analytics_faculties 1 1 sampleDB).faculties ↔
      ∃ l ∈ sampleDB.links, l.book_id = 1 ∧
        ∃ f ∈ sampleDB.faculties, f.id = l.faculty_id ∧ f.name = "Math") :=
  ⟨by decide, by decide, by decide,
    ((C2_analytics_faculties_spec 1 1 sampleDB (by decide)).2 3 (by decide)
      (by decide)).2.1 "Math"⟩

/-- C8: the non-empty output of faculty-usage analytics is
branch-independent — for two branches that both hold positive stock of the
book, count and faculty list agree; the branch argument only gates the
empty result. -/
theorem C8_faculties_branch_independent (b1 b2 bk : Int) (db : DB)
    (hk : stockKeysUnique db)
    (s1 : BookStock) (hs1 : s1 ∈ db.stocks) (h1b : s1.branch_id = b1) (h1k : s1.book_id = bk)
    (h1q : 0 < s1.quantity)
    (s2 : BookStock) (hs2 : s2 ∈ db.stocks) (h2b : s2.branch_id = b2) (h2k : s2.book_id = bk)
    (h2q : 0 < s2.quantity) :
    (analytics_faculties b1 bk db).count = (analytics_faculties b2 bk db).count ∧
    (analytics_faculties b1 bk db).faculties = (analytics_faculties b2 bk db).faculties := by
  have g1 : ¬((stockLookup db b1 bk).getD 0 ≤ 0) := by
    rw [stockLookup_eq_some hk hs1 h1b h1k]
    simp only [Option.getD_some]
    omega
  have g2 : ¬((stockLookup db b2 bk).getD 0 ≤ 0) := by
    rw [stockLookup_eq_some hk hs2 h2b h2k]
    simp only [Option.getD_some]
    omega
  have e1 : analytics_faculties b1 bk db =
      { book_id := bk, branch_id := b1,
        count := (List.insertionSort (· ≤ ·) (linkedFacultyNames db bk)).length,
        faculties := List.insertionSort (· ≤ ·) (linkedFacultyNames db bk) } := by
    unfold analytics_faculties
    rw [if_neg g1]
  have e2 : analytics_faculties b2 bk db =
      { book_id := bk, branch_id := b2,
        count := (List.insertionSort (· ≤ ·) (linkedFacultyNames db bk)).length,
        faculties := List.insertionSort (· ≤ ·) (linkedFacultyNames db bk) } := by
    unfold analytics_faculties
    rw [if_neg g2]
  rw [e1, e2]
  exact ⟨rfl, rfl⟩

/-- Concrete run of C8: book 1 is stocked at branch 1 (3 copies) and at
branch 2 (2 copies); both branches receive the same faculty analytics. -/
theorem C8_faculties_branch_independent_witness :
    stockKeysUnique sampleDB ∧
    (analytics_faculties 1 1 sampleDB).count = (analytics_faculties 2 1 sampleDB).count ∧
    (analytics_faculties 1 1 sampleDB).faculties = (analytics_faculties 2 1 sampleDB).faculties :=
  ⟨by decide,
    (C8_faculties_branch_independent 1 2 1 sampleDB (by decide) ⟨1, 1, 3⟩ (by decide) rfl rfl
      (by decide) ⟨1, 2, 2⟩ (by decide) rfl rfl (by decide)).1,
    (C8_faculties_branch_independent 1 2 1 sampleDB (by decide) ⟨1, 1, 3⟩ (by decide) rfl rfl
      (by decide) ⟨1, 2, 2⟩ (by decide) rfl rfl (by decide)).2⟩

/-- C1: book deletion signals a conflict when the aggregate stock over all
branches is positive, not-found when the sum is 0 and no such book exists,
and otherwise removes the book; repeating the deletion then yields
not-found. -/
theorem C1_delete_book_spec (book_id : Int) (db : DB) :
    (0 < stockSumFor db book_id →
      delete_book book_id db = .error (.conflict
        "Нельзя удалить книгу: она числится в филиалах. Сначала обнули количество в филиалах")) ∧
    (stockSumFor db book_id = 0 → (∀ b ∈ db.books, b.id ≠ book_id) →
      delete_book book_id db = .error (.notFound "Книга не найдена")) ∧
    (∀ b ∈ db.books, b.id = book_id → stockSumFor db book_id = 0 →
      ∃ db', delete_book book_id db = .ok db' ∧
        (∀ c ∈ db'.books, c.id ≠ book_id) ∧
        delete_book book_id db' = .error (.notFound "Книга не найдена")) := by
  refine ⟨?_, ?_, ?_⟩
  · intro h
    unfold delete_book
    rw [if_pos h]
  · intro h0 habs
    have hfind : db.books.find? (fun b => b.id == book_id) = none := by
      rw [List.find?_eq_none]
      intro b hb
      simp only [beq_iff_eq]
      exact habs b hb
    unfold delete_book
    rw [if_neg (by omega), if_pos hfind]
  · intro b hb hid h0
    have hfind : ¬(db.books.find? (fun c => c.id == book_id) = none) := by
      intro hn
      have := List.find?_eq_none.1 hn b hb
      simp [hid] at this
    refine ⟨{ db with
        books := db.books.filter (fun c => !(c.id == book_id)),
        stocks := db.stocks.filter (fun s => !(s.book_id == book_id)),
        links := db.links.filter (fun l => !(l.book_id == book_id)) }, ?_, ?_, ?_⟩
    · unfold delete_book
      rw [if_neg (by omega), if_neg hfind]
    · intro c hc
      have h2 := (List.mem_filter.1 hc).2
      simp only [Bool.not_eq_eq_eq_not, Bool.not_true, beq_eq_false_iff_ne] at h2
      exact h2
    · have hnil : (db.stocks.filter (fun s => !(s.book_id == book_id))).filter
          (fun s => s.book_id == book_id) = [] := by
        rw [List.filter_eq_nil_iff]
        intro s hs
        have h2 := (List.mem_filter.1 hs).2
        simp only [Bool.not_eq_eq_eq_not, Bool.not_true, beq_eq_false_iff_ne] at h2
        simp only [beq_iff_eq]
        exact h2
      have hsum0 : stockSumFor { db with
          books := db.books.filter (fun c => !(c.id == book_id)),
          stocks := db.stocks.filter (fun s => !(s.book_id == book_id)),
          links := db.links.filter (fun l => !(l.book_id == book_id)) } book_id = 0 := by
        unfold stockSumFor
        rw [hnil]
        rfl
      have hfind2 : (db.books.filter (fun c => !(c.id == book_id))).find?
          (fun c => c.id == book_id) = none := by
        rw [List.find?_eq_none]
        intro c hc
        have h2 := (List.mem_filter.1 hc).2
        simp only [Bool.not_eq_eq_eq_not, Bool.not_true, beq_eq_false_iff_ne] at h2
        simp only [beq_iff_eq]
        exact h2
      unfold delete_book
      rw [if_neg (by rw [hsum0]; omega), if_pos hfind2]

/-- Concrete run of C1: book 2 of the sample state has aggregate stock 0
(one zero-quantity row), so its deletion succeeds and a second deletion
answers not-found. -/
theorem C1_delete_book_spec_witness :
    bookAlg ∈ sampleDB.books ∧ bookAlg.id = 2 ∧ stockSumFor sampleDB 2 = 0 ∧
    ∃ db', delete_book 2 sampleDB = .ok db' ∧
      (∀ c ∈ db'.books, c.id ≠ 2) ∧
      delete_book 2 db' = .error (.notFound "Книга не найдена") :=
  ⟨by decide, by decide, by decide,
    (C1_delete_book_spec 2 sampleDB).2.2 bookAlg (by decide) (by decide) (by decide)⟩

/-- C6: faculty deletion conflicts while any book-faculty link references
the faculty (deleting nothing), answers not-found for an absent unlinked
faculty, and otherwise removes exactly that faculty. -/
theorem C6_delete_faculty_spec (faculty_id : Int) (db : DB) :
    ((∃ l ∈ db.links, l.faculty_id = faculty_id) →
      delete_faculty faculty_id db = .error (.conflict
        "Нельзя удалить факультет: есть связи с книгами. Сначала отвяжи книги от факультета")) ∧
    ((∀ l ∈ db.links, l.faculty_id ≠ faculty_id) → (∀ f ∈ db.faculties, f.id ≠ faculty_id) →
      delete_faculty faculty_id db = .error (.notFound "Факультет не найден")) ∧
    ((∀ l ∈ db.links, l.faculty_id ≠ faculty_id) → ∀ f ∈ db.faculties, f.id = faculty_id →
      ∃ db', delete_faculty faculty_id db = .ok db' ∧
        db'.faculties = db.faculties.filter (fun g => !(g.id == faculty_id)) ∧
        (∀ g ∈ db'.faculties, g.id ≠ faculty_id) ∧
        db'.links = db.links ∧ db'.books = db.books ∧ db'.branches = db.branches ∧
        db'.stocks = db.stocks) := by
  have hguard : ∀ l ∈ db.links, l.faculty_id ≠ faculty_id →
      True := fun _ _ _ => trivial
  refine ⟨?_, ?_, ?_⟩
  · rintro ⟨l, hl, hfid⟩
    have hmem : l ∈ db.links.filter (fun t => t.faculty_id == faculty_id) :=
      List.mem_filter.2 ⟨hl, by simp [hfid]⟩
    have hpos : 0 < (db.links.filter (fun t => t.faculty_id == faculty_id)).length :=
      List.length_pos.2 (List.ne_nil_of_mem hmem)
    unfold delete_faculty
    rw [if_pos hpos]
  · intro hno habs
    have hlen : (db.links.filter (fun t => t.faculty_id == faculty_id)).length = 0 := by
      rw [List.length_eq_zero, List.filter_eq_nil_iff]
      intro l hl
      simp only [beq_iff_eq]
      exact hno l hl
    have hfind : db.faculties.find? (fun f => f.id == faculty_id) = none := by
      rw [List.find?_eq_none]
      intro f hf
      simp only [beq_iff_eq]
      exact habs f hf
    unfold delete_faculty
    rw [if_neg (by omega), if_pos hfind]
  · intro hno f hf hfid
    have hlen : (db.links.filter (fun t => t.faculty_id == faculty_id)).length = 0 := by
      rw [List.length_eq_zero, List.filter_eq_nil_iff]
      intro l hl
      simp only [beq_iff_eq]
      exact hno l hl
    have hfind : ¬(db.faculties.find? (fun g => g.id == faculty_id) = none) := by
      intro hn
      have := List.find?_eq_none.1 hn f hf
      simp [hfid] at this
    refine ⟨{ db with
        faculties := db.faculties.filter (fun g => !(g.id == faculty_id)),
        links := db.links.filter (fun l => !(l.faculty_id == faculty_id)) }, ?_, rfl, ?_, ?_, rfl, rfl, rfl⟩
    · unfold delete_faculty
      rw [if_neg (by omega), if_neg hfind]
    · intro g hg
      have h2 := (List.mem_filter.1 hg).2
      simp only [Bool.not_eq_eq_eq_not, Bool.not_true, beq_eq_false_iff_ne] at h2
      exact h2
    · rw [List.filter_eq_self]
      intro l hl
      simp only [Bool.not_eq_eq_eq_not, Bool.not_true, beq_eq_false_iff_ne]
      exact hno l hl

/-- Concrete run of C6: faculty 1 is linked to book 1, so its deletion
conflicts; faculty 3 has no link, so its deletion succeeds and removes it. -/
theorem C6_delete_faculty_spec_witness :
    (∃ l ∈ sampleDB.links, l.faculty_id = 1) ∧
    delete_faculty 1 sampleDB = .error (.conflict
      "Нельзя удалить факультет: есть связи с книгами. Сначала отвяжи книги от факультета") ∧
    ((∀ l ∈ sampleDB.links, l.faculty_id ≠ 3) ∧ facChem ∈ sampleDB.faculties ∧ facChem.id = 3) ∧
    ∃ db', delete_faculty 3 sampleDB = .ok db' ∧
      db'.faculties = sampleDB.faculties.filter (fun g => !(g.id == 3)) ∧
      (∀ g ∈ db'.faculties, g.id ≠ 3) ∧
      db'.links = sampleDB.links ∧ db'.books = sampleDB.books ∧
      db'.branches = sampleDB.branches ∧ db'.stocks = sampleDB.stocks :=
  ⟨by decide, (C6_delete_faculty_spec 1 sampleDB).1 (by decide),
    ⟨by decide, by decide, by decide⟩,
    (C6_delete_faculty_spec 3 sampleDB).2.2 (by decide) facChem (by decide) (by decide)⟩

/-- C9: a book whose aggregate stock is 0 can be deleted even while
book-faculty links still reference it — no guard on book deletion inspects
the links — and the deletion removes its link rows and its stock rows;
deleting a linked faculty, by contrast, conflicts. -/
theorem C9_delete_book_cascade (book_id : Int) (db : DB)
    (hsum : stockSumFor db book_id = 0)
    (b : Book) (hb : b ∈ db.books) (hid : b.id = book_id) :
    ∃ db', delete_book book_id db = .ok db' ∧
      db'.links = db.links.filter (fun l => !(l.book_id == book_id)) ∧
      (∀ l ∈ db'.links, l.book_id ≠ book_id) ∧
      db'.stocks = db.stocks.filter (fun s => !(s.book_id == book_id)) ∧
      (∀ s ∈ db'.stocks, s.book_id ≠ book_id) ∧
      db'.books = db.books.filter (fun c => !(c.id == book_id)) ∧
      db'.branches = db.branches ∧ db'.faculties = db.faculties ∧
      (∀ l ∈ db.links, delete_faculty l.faculty_id db = .error (.conflict
        "Нельзя удалить факультет: есть связи с книгами. Сначала отвяжи книги от факультета")) := by
  have hfind : ¬(db.books.find? (fun c => c.id == book_id) = none) := by
    intro hn
    have := List.find?_eq_none.1 hn b hb
    simp [hid] at this
  refine ⟨{ db with
      books := db.books.filter (fun c => !(c.id == book_id)),
      stocks := db.stocks.filter (fun s => !(s.book_id == book_id)),
      links := db.links.filter (fun l => !(l.book_id == book_id)) },
    ?_, rfl, ?_, rfl, ?_, rfl, rfl, rfl, ?_⟩
  · unfold delete_book
    rw [if_neg (by omega), if_neg hfind]
  · intro l hl
    have h2 := (List.mem_filter.1 hl).2
    simp only [Bool.not_eq_eq_eq_not, Bool.not_true, beq_eq_false_iff_ne] at h2
    exact h2
  · intro s hs
    have h2 := (List.mem_filter.1 hs).2
    simp only [Bool.not_eq_eq_eq_not, Bool.not_true, beq_eq_false_iff_ne] at h2
    exact h2
  · intro l hl
    have hmem : l ∈ db.links.filter (fun t => t.faculty_id == l.faculty_id) :=
      List.mem_filter.2 ⟨hl, by simp⟩
    have hpos : 0 < (db.links.filter (fun t => t.faculty_id == l.faculty_id)).length :=
      List.length_pos.2 (List.ne_nil_of_mem hmem)
    unfold delete_faculty
    rw [if_pos hpos]

/-- Concrete run of C9: book 2 of the sample state has aggregate stock 0;
its deletion succeeds although link rows exist in the state, and each
sample link blocks the deletion of its faculty. -/
theorem C9_delete_book_cascade_witness :
    stockSumFor sampleDB 2 = 0 ∧ bookAlg ∈ sampleDB.books ∧ bookAlg.id = 2 ∧
    ∃ db', delete_book 2 sampleDB = .ok db' ∧
      db'.links = sampleDB.links.filter (fun l => !(l.book_id == 2)) ∧
      (∀ l ∈ db'.links, l.book_id ≠ 2) ∧
      db'.stocks = sampleDB.stocks.filter (fun s => !(s.book_id == 2)) ∧
      (∀ s ∈ db'.stocks, s.book_id ≠ 2) ∧
      db'.books = sampleDB.books.filter (fun c => !(c.id == 2)) ∧
      db'.branches = sampleDB.branches ∧ db'.faculties = sampleDB.faculties ∧
      (∀ l ∈ sampleDB.links, delete_faculty l.faculty_id sampleDB = .error (.conflict
        "Нельзя удалить факультет: есть связи с книгами. Сначала отвяжи книги от факультета")) :=
  ⟨by decide, by decide, by decide,
    C9_delete_book_cascade 2 sampleDB (by decide) bookAlg (by decide) (by decide)⟩

/-- C10: a branch whose stock rows all hold quantity 0 can be deleted — the
guard counts only rows with positive quantity — and the deletion removes
those zero-quantity stock rows together with the branch. -/
theorem C10_delete_branch_cascade (branch_id : Int) (db : DB)
    (hz : ∀ s ∈ db.stocks, s.branch_id = branch_id → s.quantity = 0)
    (r : Branch) (hr : r ∈ db.branches) (hid : r.id = branch_id) :
    ∃ db', delete_branch branch_id db = .ok db' ∧
      db'.stocks = db.stocks.filter (fun s => !(s.branch_id == branch_id)) ∧
      (∀ s ∈ db'.stocks, s.branch_id ≠ branch_id) ∧
      db'.branches = db.branches.filter (fun c => !(c.id == branch_id)) ∧
      (∀ c ∈ db'.branches, c.id ≠ branch_id) ∧
      db'.books = db.books ∧ db'.faculties = db.faculties ∧ db'.links = db.links := by
  have hlen : (db.stocks.filter
      (fun s => s.branch_id == branch_id && decide (0 < s.quantity))).length = 0 := by
    rw [List.length_eq_zero, List.filter_eq_nil_iff]
    intro s hs
    simp only [Bool.and_eq_true, beq_iff_eq, decide_eq_true_eq, not_and]
    intro hbr
    have := hz s hs hbr
    omega
  have hfind : ¬(db.branches.find? (fun c => c.id == branch_id) = none) := by
    intro hn
    have := List.find?_eq_none.1 hn r hr
    simp [hid] at this
  refine ⟨{ db with
      branches := db.branches.filter (fun c => !(c.id == branch_id)),
      stocks := db.stocks.filter (fun s => !(s.branch_id == branch_id)) },
    ?_, rfl, ?_, rfl, ?_, rfl, rfl, rfl⟩
  · unfold delete_branch
    rw [if_neg (by omega), if_neg hfind]
  · intro s hs
    have h2 := (List.mem_filter.1 hs).2
    simp only [Bool.not_eq_eq_eq_not, Bool.not_true, beq_eq_false_iff_ne] at h2
    exact h2
  · intro c hc
    have h2 := (List.mem_filter.1 hc).2
    simp only [Bool.not_eq_eq_eq_not, Bool.not_true, beq_eq_false_iff_ne] at h2
    exact h2

/-- Concrete run of C10: in the all-zero sample state branch 1 has a stock
row of quantity 0, and its deletion succeeds, removing that row too. -/
theorem C10_delete_branch_cascade_witness :
    (∀ s ∈ zeroStockDB.stocks, s.branch_id = 1 → s.quantity = 0) ∧
    (⟨1, 1, 0⟩ : BookStock) ∈ zeroStockDB.stocks ∧
    branchMain ∈ zeroStockDB.branches ∧ branchMain.id = 1 ∧
    ∃ db', delete_branch 1 zeroStockDB = .ok db' ∧
      db'.stocks = zeroStockDB.stocks.filter (fun s => !(s.branch_id == 1)) ∧
      (∀ s ∈ db'.stocks, s.branch_id ≠ 1) ∧
      db'.branches = zeroStockDB.branches.filter (fun c => !(c.id == 1)) ∧
      (∀ c ∈ db'.branches, c.id ≠ 1) ∧
      db'.books = zeroStockDB.books ∧ db'.faculties = zeroStockDB.faculties ∧
      db'.links = zeroStockDB.links :=
  ⟨by decide, by decide, by decide, by decide,
    C10_delete_branch_cascade 1 zeroStockDB (by decide) branchMain (by decide) (by decide)⟩

/-- Two book rows of an identity-unique state with the same identity tuple
are the same row. -/
theorem book_identity_inj {db : DB} (h : bookIdentityUnique db) {s t : Book}
    (hs : s ∈ db.books) (ht : t ∈ db.books) (he : s.identity = t.identity) : s = t := by
  have hsym : Symmetric (fun a b : Book => a.identity ≠ b.identity) :=
    fun a b h1 h2 => h1 h2.symm
  rcases eq_or_ne s t with heq | hne
  · exact heq
  · exact absurd he (List.Pairwise.forall hsym h hs ht hne)

/-- The successful path of `upsert_stock`: with book and branch present it
answers the row of the request, leaves every table but `book_stock`
untouched, keeps the rows of other pairs, stores exactly one row for the
requested pair holding the requested quantity, and preserves key
uniqueness. -/
theorem upsert_stock_ok (p : StockUpsert) (db : DB)
    (hk : stockKeysUnique db)
    (hbook : ∃ b ∈ db.books, b.id = p.book_id)
    (hbranch : ∃ r ∈ db.branches, r.id = p.branch_id) :
    ∃ db', upsert_stock p db = .ok (⟨p.book_id, p.branch_id, p.quantity⟩, db') ∧
      db'.stocks.filter (fun s => s.book_id == p.book_id && s.branch_id == p.branch_id) =
        [⟨p.book_id, p.branch_id, p.quantity⟩] ∧
      db'.stocks.filter (fun s => !(s.book_id == p.book_id && s.branch_id == p.branch_id)) =
        db.stocks.filter (fun s => !(s.book_id == p.book_id && s.branch_id == p.branch_id)) ∧
      db'.books = db.books ∧ db'.branches = db.branches ∧ db'.faculties = db.faculties ∧
      db'.links = db.links ∧ db'.nextBookId = db.nextBookId ∧
      stockKeysUnique db' := by
  obtain ⟨b, hbm, hbid⟩ := hbook
  obtain ⟨r, hrm, hrid⟩ := hbranch
  have hfb : ¬(db.books.find? (fun c => c.id == p.book_id) = none) := by
    intro hn
    have := List.find?_eq_none.1 hn b hbm
    simp [hbid] at this
  have hfr : ¬(db.branches.find? (fun c => c.id == p.branch_id) = none) := by
    intro hn
    have := List.find?_eq_none.1 hn r hrm
    simp [hrid] at this
  by_cases hs : db.stocks.find?
      (fun s => s.book_id == p.book_id && s.branch_id == p.branch_id) = none
  · have hnone : ∀ s ∈ db.stocks, ¬(s.book_id = p.book_id ∧ s.branch_id = p.branch_id) := by
      intro s hsm hc
      have := List.find?_eq_none.1 hs s hsm
      simp [hc.1, hc.2] at this
    refine ⟨{ db with stocks := db.stocks ++ [⟨p.book_id, p.branch_id, p.quantity⟩] },
      ?_, ?_, ?_, rfl, rfl, rfl, rfl, rfl, ?_⟩
    · unfold upsert_stock
      rw [if_neg hfb, if_neg hfr, if_pos hs]
    · show (db.stocks ++ [(⟨p.book_id, p.branch_id, p.quantity⟩ : BookStock)]).filter _ = _
      rw [List.filter_append]
      have h1 : db.stocks.filter
          (fun s => s.book_id == p.book_id && s.branch_id == p.branch_id) = [] := by
        rw [List.filter_eq_nil_iff]
        intro s hsm
        simp only [Bool.and_eq_true, beq_iff_eq]
        exact hnone s hsm
      rw [h1]
      simp
    · show (db.stocks ++ [(⟨p.book_id, p.branch_id, p.quantity⟩ : BookStock)]).filter _ = _
      rw [List.filter_append]
      have h2 : ([(⟨p.book_id, p.branch_id, p.quantity⟩ : BookStock)]).filter
          (fun s => !(s.book_id == p.book_id && s.branch_id == p.branch_id)) = [] := by
        simp
      rw [h2, List.append_nil]
    · show (db.stocks ++ [(⟨p.book_id, p.branch_id, p.quantity⟩ : BookStock)]).Pairwise _
      rw [List.pairwise_append]
      refine ⟨hk, List.pairwise_singleton _ _, ?_⟩
      intro a ha c hc
      rw [List.mem_singleton] at hc
      subst hc
      exact hnone a ha
  · obtain ⟨t, ht⟩ := Option.ne_none_iff_exists'.1 hs
    have htm := List.mem_of_find?_eq_some ht
    have htp := List.find?_some ht
    simp only [Bool.and_eq_true, beq_iff_eq] at htp
    refine ⟨{ db with stocks := overwriteQty p.book_id p.branch_id p.quantity db.stocks },
      ?_, ?_, ?_, rfl, rfl, rfl, rfl, rfl, ?_⟩
    · unfold upsert_stock
      rw [if_neg hfb, if_neg hfr, if_neg hs]
    · exact overwriteQty_filter_key _ _ _ hk htm htp.1 htp.2
    · exact overwriteQty_filter_others _ _ _ _
    · exact overwriteQty_keys _ _ _ hk

/-- C3: an upsert with quantity ≥ 0 answers not-found when the book or the
branch is absent; otherwise it stores exactly one row for the pair holding
the given quantity — inserting if the pair had no row, overwriting if it
had one — and a second upsert for the same pair again leaves exactly one
row holding the last quantity, never a duplicate. -/
theorem C3_upsert_stock_spec (p : StockUpsert) (db : DB)
    (hk : stockKeysUnique db) (hq : 0 ≤ p.quantity) :
    ((∀ b ∈ db.books, b.id ≠ p.book_id) →
      upsert_stock p db = .error (.notFound "Книга не найдена")) ∧
    ((∃ b ∈ db.books, b.id = p.book_id) → (∀ r ∈ db.branches, r.id ≠ p.branch_id) →
      upsert_stock p db = .error (.notFound "Филиал не найден")) ∧
    ((∃ b ∈ db.books, b.id = p.book_id) → (∃ r ∈ db.branches, r.id = p.branch_id) →
      ∃ db', upsert_stock p db = .ok (⟨p.book_id, p.branch_id, p.quantity⟩, db') ∧
        db'.stocks.filter (fun s => s.book_id == p.book_id && s.branch_id == p.branch_id) =
          [⟨p.book_id, p.branch_id, p.quantity⟩] ∧
        db'.stocks.filter (fun s => !(s.book_id == p.book_id && s.branch_id == p.branch_id)) =
          db.stocks.filter (fun s => !(s.book_id == p.book_id && s.branch_id == p.branch_id)) ∧
        db'.books = db.books ∧ db'.branches = db.branches ∧ db'.faculties = db.faculties ∧
        db'.links = db.links ∧
        (∀ q2 : Int, ∃ db'',
          upsert_stock ⟨p.book_id, p.branch_id, q2⟩ db' =
            .ok (⟨p.book_id, p.branch_id, q2⟩, db'') ∧
          db''.stocks.filter (fun s => s.book_id == p.book_id && s.branch_id == p.branch_id) =
            [⟨p.book_id, p.branch_id, q2⟩] ∧
          db''.stocks.filter (fun s => !(s.book_id == p.book_id && s.branch_id == p.branch_id)) =
            db.stocks.filter (fun s => !(s.book_id == p.book_id && s.branch_id == p.branch_id)))) := by
  refine ⟨?_, ?_, ?_⟩
  · intro habs
    have hfb : db.books.find? (fun c => c.id == p.book_id) = none := by
      rw [List.find?_eq_none]
      intro c hc
      simp only [beq_iff_eq]
      exact habs c hc
    unfold upsert_stock
    rw [if_pos hfb]
  · rintro ⟨b, hbm, hbid⟩ habs
    have hfb : ¬(db.books.find? (fun c => c.id == p.book_id) = none) := by
      intro hn
      have := List.find?_eq_none.1 hn b hbm
      simp [hbid] at this
    have hfr : db.branches.find? (fun c => c.id == p.branch_id) = none := by
      rw [List.find?_eq_none]
      intro c hc
      simp only [beq_iff_eq]
      exact habs c hc
    unfold upsert_stock
    rw [if_neg hfb, if_pos hfr]
  · intro hbook hbranch
    obtain ⟨db', hrun, hone, hothers, hbooks, hbranches, hfacs, hlinks, hnext, hk'⟩ :=
      upsert_stock_ok p db hk hbook hbranch
    refine ⟨db', hrun, hone, hothers, hbooks, hbranches, hfacs, hlinks, ?_⟩
    intro q2
    obtain ⟨db'', hrun2, hone2, hothers2, _, _, _, _, _, _⟩ :=
      upsert_stock_ok ⟨p.book_id, p.branch_id, q2⟩ db' hk'
        (hbooks ▸ hbook) (hbranches ▸ hbranch)
    exact ⟨db'', hrun2, hone2, hothers2.trans hothers⟩

/-- Concrete run of C3: upserting stock for the absent book 99 answers
not-found; upserting 7 copies of book 1 at branch 2 — which already has a
row for the pair — overwrites it, and a subsequent upsert of 4 copies again
leaves a single row for the pair. -/
theorem C3_upsert_stock_spec_witness :
    stockKeysUnique sampleDB ∧ ((0 : Int) ≤ 7) ∧
    (∀ b ∈ sampleDB.books, b.id ≠ 99) ∧
    upsert_stock ⟨99, 1, 7⟩ sampleDB = .error (.notFound "Книга не найдена") ∧
    ∃ db', upsert_stock ⟨1, 2, 7⟩ sampleDB = .ok (⟨1, 2, 7⟩, db') ∧
      db'.stocks.filter (fun s => s.book_id == 1 && s.branch_id == 2) = [⟨1, 2, 7⟩] ∧
      db'.stocks.filter (fun s => !(s.book_id == 1 && s.branch_id == 2)) =
        sampleDB.stocks.filter (fun s => !(s.book_id == 1 && s.branch_id == 2)) ∧
      db'.books = sampleDB.books ∧ db'.branches = sampleDB.branches ∧
      db'.faculties = sampleDB.faculties ∧ db'.links = sampleDB.links ∧
      (∀ q2 : Int, ∃ db'',
        upsert_stock ⟨1, 2, q2⟩ db' = .ok (⟨1, 2, q2⟩, db'') ∧
        db''.stocks.filter (fun s => s.book_id == 1 && s.branch_id == 2) = [⟨1, 2, q2⟩] ∧
        db''.stocks.filter (fun s => !(s.book_id == 1 && s.branch_id == 2)) =
          sampleDB.stocks.filter (fun s => !(s.book_id == 1 && s.branch_id == 2))) :=
  ⟨by decide, by decide, by decide,
    (C3_upsert_stock_spec ⟨99, 1, 7⟩ sampleDB (by decide) (by decide)).1 (by decide),
    (C3_upsert_stock_spec ⟨1, 2, 7⟩ sampleDB (by decide) (by decide)).2.2
      (by decide) (by decide)⟩

/-- C4: updating an existing book assigns exactly the fields present in the
request — every absent field keeps its previous value — and the update with
the empty payload returns the book and the state unchanged. -/
theorem C4_update_book_frame (book_id : Int) (p : BookUpdate) (db : DB) (b : Book)
    (hb : b ∈ db.books) (hid : b.id = book_id)
    (hids : bookIdsUnique db) (hident : bookIdentityUnique db) :
    (∀ b' db', update_book book_id p db = .ok (b', db') →
      (b'.id = b.id ∧
       (p.title = none → b'.title = b.title) ∧
       (p.authors = none → b'.authors = b.authors) ∧
       (p.publisher = none → b'.publisher = b.publisher) ∧
       (p.year = none → b'.year = b.year) ∧
       (p.pages = none → b'.pages = b.pages) ∧
       (p.illustrations = none → b'.illustrations = b.illustrations) ∧
       (p.price = none → b'.price = b.price) ∧
       (∀ v, p.title = some v → b'.title = v) ∧
       (∀ v, p.authors = some v → b'.authors = v) ∧
       (∀ v, p.publisher = some v → b'.publisher = v) ∧
       (∀ v, p.year = some v → b'.year = v) ∧
       (∀ v, p.pages = some v → b'.pages = v) ∧
       (∀ v, p.illustrations = some v → b'.illustrations = v) ∧
       (∀ v, p.price = some v → b'.price = v))) ∧
    (p = emptyBookUpdate → update_book book_id p db = .ok (b, db)) := by
  have hfind : db.books.find? (fun c => c.id == book_id) = some b := by
    apply find_first_unique hb (by simp [hid])
    intro c hc hpc
    simp only [beq_iff_eq] at hpc
    exact book_id_inj hids hc hb (hpc.trans hid.symm)
  constructor
  · intro b' db' hok
    unfold update_book at hok
    rw [hfind, Option.elim_some] at hok
    by_cases hany : (db.books.any
        fun c => !(c.id == book_id) && c.identity == (applyUpdate p b).identity) = true
    · rw [if_pos hany] at hok
      cases hok
    · rw [if_neg hany, Except.ok.injEq, Prod.mk.injEq] at hok
      obtain ⟨h1, h2⟩ := hok
      subst h1
      refine ⟨rfl, ?_, ?_, ?_, ?_, ?_, ?_, ?_, ?_, ?_, ?_, ?_, ?_, ?_, ?_⟩ <;>
        · intros
          simp [applyUpdate, *]
  · intro hp
    subst hp
    have happ : applyUpdate emptyBookUpdate b = b := rfl
    have hany : ¬((db.books.any
        fun c => !(c.id == book_id) && c.identity == (applyUpdate emptyBookUpdate b).identity)
          = true) := by
      intro hc
      rw [List.any_eq_true] at hc
      obtain ⟨c, hcm, hcp⟩ := hc
      rw [Bool.and_eq_true] at hcp
      obtain ⟨hc1, hc2⟩ := hcp
      rw [beq_iff_eq] at hc2
      have hcb : c = b := book_identity_inj hident hcm hb hc2
      rw [hcb] at hc1
      rw [hid] at hc1
      simp at hc1
    have hmap : db.books.map
        (fun c => if c.id == book_id then applyUpdate emptyBookUpdate b else c) = db.books := by
      have h1 : ∀ c ∈ db.books,
          (if c.id == book_id then applyUpdate emptyBookUpdate b else c) = id c := by
        intro c hc
        by_cases h : (c.id == book_id) = true
        · rw [if_pos h, happ]
          simp only [beq_iff_eq] at h
          exact book_id_inj hids hb hc (hid.trans h.symm)
        · rw [if_neg h]
          rfl
      rw [List.map_congr_left h1, List.map_id]
    unfold update_book
    rw [hfind, Option.elim_some, if_neg hany, hmap, happ]

/-- Concrete run of C4: a title-only update of book 2 keeps all its other
fields, and the empty update leaves book 2 and the state unchanged. -/
theorem C4_update_book_frame_witness :
    bookAlg ∈ sampleDB.books ∧ bookAlg.id = 2 ∧
    bookIdsUnique sampleDB ∧ bookIdentityUnique sampleDB ∧
    (∀ b' db', update_book 2 { emptyBookUpdate with title := some "Algebra II" } sampleDB =
        .ok (b', db') →
      (b'.authors = bookAlg.authors ∧ b'.publisher = bookAlg.publisher ∧
       b'.year = bookAlg.year ∧ b'.title = "Algebra II")) ∧
    update_book 2 emptyBookUpdate sampleDB = .ok (bookAlg, sampleDB) := by
  refine ⟨by decide, by decide, by decide, by decide, ?_, ?_⟩
  · intro b' db' hok
    have h := (C4_update_book_frame 2 { emptyBookUpdate with title := some "Algebra II" }
      sampleDB bookAlg (by decide) (by decide) (by decide) (by decide)).1 b' db' hok
    exact ⟨h.2.2.1 rfl, h.2.2.2.1 rfl, h.2.2.2.2.1 rfl, h.2.2.2.2.2.2.2.2.1 "Algebra II" rfl⟩
  · exact (C4_update_book_frame 2 emptyBookUpdate sampleDB bookAlg (by decide) (by decide)
      (by decide) (by decide)).2 rfl

/-- C5: creating a book whose identity tuple is already stored conflicts —
after rollback the stored books are unchanged — while a fresh identity
tuple is inserted and returned, and repeating the same create then
conflicts. -/
theorem C5_create_book_spec (p : BookCreate) (db : DB) :
    ((∃ b ∈ db.books, b.identity = p.identity) →
      create_book p db = .error (.conflict
        "Дублирующая запись книги, проверь название, авторов, издательство и год")) ∧
    ((∀ b ∈ db.books, b.identity ≠ p.identity) →
      ∃ bk db', create_book p db = .ok (bk, db') ∧ bk.identity = p.identity ∧
        db'.books = db.books ++ [bk] ∧ db'.branches = db.branches ∧
        db'.faculties = db.faculties ∧ db'.stocks = db.stocks ∧ db'.links = db.links ∧
        create_book p db' = .error (.conflict
          "Дублирующая запись книги, проверь название, авторов, издательство и год")) := by
  constructor
  · rintro ⟨b, hbm, hbe⟩
    have hany : (db.books.any
        fun c => c.identity == (newBookFor p db).identity) = true := by
      rw [List.any_eq_true]
      refine ⟨b, hbm, ?_⟩
      rw [beq_iff_eq, hbe]
      rfl
    unfold create_book
    rw [if_pos hany]
  · intro hno
    have hany : ¬((db.books.any
        fun c => c.identity == (newBookFor p db).identity) = true) := by
      intro hc
      rw [List.any_eq_true] at hc
      obtain ⟨c, hcm, hcp⟩ := hc
      rw [beq_iff_eq] at hcp
      exact hno c hcm hcp
    refine ⟨newBookFor p db,
      { db with books := db.books ++ [newBookFor p db], nextBookId := db.nextBookId + 1 },
      ?_, rfl, rfl, rfl, rfl, rfl, rfl, ?_⟩
    · unfold create_book
      rw [if_neg hany]
    · have hmem : newBookFor p db ∈ db.books ++ [newBookFor p db] :=
        List.mem_append.2 (Or.inr (List.mem_singleton.2 rfl))
      have hany2 : ((db.books ++ [newBookFor p db]).any
          fun c => c.identity ==
            (newBookFor p { db with
              books := db.books ++ [newBookFor p db],
              nextBookId := db.nextBookId + 1 }).identity) = true := by
        rw [List.any_eq_true]
        refine ⟨newBookFor p db, hmem, ?_⟩
        rw [beq_iff_eq]
        rfl
      unfold create_book
      rw [if_pos hany2]

/-- Concrete run of C5: creating a book with the identity tuple of the
stored book 2 conflicts; a fresh "Geometry" book is created, and creating
it a second time conflicts. -/
theorem C5_create_book_spec_witness :
    (∃ b ∈ sampleDB.books, b.identity =
      BookCreate.identity ⟨"Algebra", "Petrov", "MSU", none, none, 0, none⟩) ∧
    create_book ⟨"Algebra", "Petrov", "MSU", none, none, 0, none⟩ sampleDB =
      .error (.conflict
        "Дублирующая запись книги, проверь название, авторов, издательство и год") ∧
    (∀ b ∈ sampleDB.books, b.identity ≠
      BookCreate.identity ⟨"Geometry", "Sidorov", "MSU", some 2010, none, 0, none⟩) ∧
    ∃ bk db', create_book ⟨"Geometry", "Sidorov", "MSU", some 2010, none, 0, none⟩ sampleDB =
        .ok (bk, db') ∧
      bk.identity = BookCreate.identity ⟨"Geometry", "Sidorov", "MSU", some 2010, none, 0, none⟩ ∧
      db'.books = sampleDB.books ++ [bk] ∧ db'.branches = sampleDB.branches ∧
      db'.faculties = sampleDB.faculties ∧ db'.stocks = sampleDB.stocks ∧
      db'.links = sampleDB.links ∧
      create_book ⟨"Geometry", "Sidorov", "MSU", some 2010, none, 0, none⟩ db' =
        .error (.conflict
          "Дублирующая запись книги, проверь название, авторов, издательство и год") :=
  ⟨by decide,
    (C5_create_book_spec ⟨"Algebra", "Petrov", "MSU", none, none, 0, none⟩ sampleDB).1
      (by decide),
    by decide,
    (C5_create_book_spec ⟨"Geometry", "Sidorov", "MSU", some 2010, none, 0, none⟩ sampleDB).2
      (by decide)⟩
